import Mathlib

/-
Shallow embedding of the iterative constraint-solver step machine declared in
`lib/Sema/CSStep.h` and of the algorithms in the unnamed Swift standard-library
source file, together with theorems settling the specification claims.

Pointer-valued data (steps, constraints, declarations, type variables) is
modelled by natural-number identifiers; C++ containers are modelled by Lean
lists in the same order.
-/

namespace Swift

/-! ## Step states and `transitionTo` (CSStep.h lines 36-38, 139-151) -/

/-- StepState, from CSStep.h line 38:
`enum class StepState { Setup, Ready, Running, Suspended, Done }`. -/
inductive StepState
  | Setup
  | Ready
  | Running
  | Suspended
  | Done
deriving DecidableEq

/-- SolverStep::transitionTo, from CSStep.h lines 146-151.  The body is the
single unconditional assignment `State = newState`; the validation demanded by
the adjacent TODO comment ("setup -> ready -> running [-> suspended]* -> done
is the only reasonable state transition path") is absent, so every requested
transition is applied.  The function returns the new value of the `State`
field given its current value. -/
def transitionTo (_current : StepState) (newState : StepState) : StepState :=
  newState

/-- The state-transition path mandated by the specification (§3, §8.1):
`Setup → Ready → Running → (Suspended → Running)* → Done`.  A pair of states
is a valid transition exactly when it is an edge of that path. -/
def validTransition : StepState → StepState → Bool
  | StepState.Setup, StepState.Ready => true
  | StepState.Ready, StepState.Running => true
  | StepState.Running, StepState.Suspended => true
  | StepState.Suspended, StepState.Running => true
  | StepState.Running, StepState.Done => true
  | _, _ => false

/-! ## StepResult (CSStep.h lines 40-81) -/

/-- ConstraintSystem::SolutionKind, the result kind used by StepResult. -/
inductive SolutionKind
  | Solved
  | Error
  | Unsolved
deriving DecidableEq

/-- StepResult, from CSStep.h lines 42-81: a result kind together with the
`NextSteps` vector of follow-up steps (steps are modelled by their ids). -/
structure StepResult where
  ResultKind : SolutionKind
  NextSteps : List Nat
deriving DecidableEq

/-- StepResult::success (CSStep.h line 71): `StepResult(Kind::Solved)`, which
leaves `NextSteps` empty. -/
def StepResult.success : StepResult :=
  ⟨SolutionKind.Solved, []⟩

/-- StepResult::failure (CSStep.h line 72): `StepResult(Kind::Error)`, which
leaves `NextSteps` empty. -/
def StepResult.failure : StepResult :=
  ⟨SolutionKind.Error, []⟩

/-- StepResult::unsolved(SolverStep *) (CSStep.h lines 74-76): kind Unsolved
with the single follow-up pushed onto `NextSteps`. -/
def StepResult.unsolvedSingle (singleStep : Nat) : StepResult :=
  ⟨SolutionKind.Unsolved, [singleStep]⟩

/-- StepResult::unsolved(SmallVectorImpl&) (CSStep.h lines 78-80): kind
Unsolved with the whole follow-up vector moved into `NextSteps`. -/
def StepResult.unsolvedMany (followup : List Nat) : StepResult :=
  ⟨SolutionKind.Unsolved, followup⟩

/-- The results constructible through StepResult's public interface: the
default constructor is deleted and the remaining constructors are private, so
a `StepResult` can only arise from the four factories (which are exactly what
`SolverStep::done` and `SolverStep::suspend` call, CSStep.h lines 153-166). -/
inductive StepResult.FromPublicAPI : StepResult → Prop
  | success : StepResult.FromPublicAPI StepResult.success
  | failure : StepResult.FromPublicAPI StepResult.failure
  | unsolvedSingle (s : Nat) : StepResult.FromPublicAPI (StepResult.unsolvedSingle s)
  | unsolvedMany (fs : List Nat) : StepResult.FromPublicAPI (StepResult.unsolvedMany fs)

/-- StepResult::transfer, from CSStep.h lines 65-68: it reserves capacity and
then appends `NextSteps` to the driver's work list in their stored order
(`workList.append(NextSteps.begin(), NextSteps.end())`); no reversal occurs. -/
def StepResult.transfer (r : StepResult) (workList : List Nat) : List Nat :=
  workList ++ r.NextSteps

/-- Modelled from the spec: the driver itself (CSSolver.cpp) is not among the
sources; spec §2/§4.1 describe it as holding a LIFO work list of steps onto
which `transfer` pushes and from which the top step is popped next.  Since
`transfer` pushes by appending at the end of the list, the top of the LIFO
stack is the last element, and the next step the driver executes is the last
element of the work list. -/
def nextExecuted (workList : List Nat) : Option Nat :=
  workList.getLast?

/-! ## ComponentStep::Scope (CSStep.h lines 241-262) -/

/-- The mutation-sensitive slice of the ConstraintSystem tracked by
ComponentStep::Scope: the type-variable vector `CS.TypeVariables`, the
inactive-constraint list `CS.InactiveConstraints`, the pointer
`CS.solverState->PartialSolutionScope` (here `solutionScopeMark`), and an
abstract `solverTracked` component standing for whatever the nested
`ConstraintSystem::SolverScope` snapshots and rewinds. -/
structure ScopeCS where
  TypeVariables : List Nat
  InactiveConstraints : List Nat
  solutionScopeMark : Nat
  solverTracked : Nat
deriving DecidableEq

/-- The type variables and constraints recorded as belonging to one component
(the `TypeVars` and `Constraints` vectors of a ComponentStep, filled in by
the splitter via `record`). -/
structure Component where
  typeVars : List Nat
  constraints : List Nat
deriving DecidableEq

/-- The fields of ComponentStep::Scope (CSStep.h lines 241-248): the saved
type variables, the saved constraints, the previous partial-solution scope
and the nested solver-scope token. -/
structure ComponentScope where
  TypeVars : List Nat
  Constraints : List Nat
  PrevScope : Nat
  SolverScopeToken : Nat
deriving DecidableEq

/-- Modelled from the spec: `ComponentStep::Scope::Scope(const ComponentStep&)`
is only declared in CSStep.h (line 251); its body lives in CSStep.cpp, which
is not among the sources.  Spec §3 ("Records a snapshot of mutation-sensitive
state at creation (subset of type variables, subset of constraints, and a
nested solver-scope token)") and §4.3 ("captures the type variables and
constraints belonging to this component, removing [everything else] from the
shared active lists while the component runs"): construction saves the full
type-variable vector wholesale (the destructor restores it by wholesale
move), splices the constraints that do not belong to the component out of
`CS.InactiveConstraints` into the scope, installs the component's slice,
saves the previous partial-solution scope and takes the solver-scope
snapshot.  Returns the scope record and the pruned system state. -/
def scopeConstruct (cs : ScopeCS) (comp : Component) : ComponentScope × ScopeCS :=
  (⟨cs.TypeVariables,
    cs.InactiveConstraints.filter (fun c => !(comp.constraints.contains c)),
    cs.solutionScopeMark,
    cs.solverTracked⟩,
   { TypeVariables := comp.typeVars,
     InactiveConstraints :=
       cs.InactiveConstraints.filter (fun c => comp.constraints.contains c),
     solutionScopeMark := cs.solutionScopeMark,
     solverTracked := cs.solverTracked })

/-- ComponentStep::Scope's destructor, from CSStep.h lines 253-261, applied
to the system state at destruction time: `delete SolverScope` rewinds the
solver-tracked state to the token; `PartialSolutionScope` is reset to
`PrevPartialScope`; `CS.TypeVariables = std::move(TypeVars)` replaces the
type-variable vector wholesale with the saved one; and the saved constraints
are spliced onto the end of `CS.InactiveConstraints`. -/
def scopeDestroy (sc : ComponentScope) (cs : ScopeCS) : ScopeCS :=
  { TypeVariables := sc.TypeVars,
    InactiveConstraints := cs.InactiveConstraints ++ sc.Constraints,
    solutionScopeMark := sc.PrevScope,
    solverTracked := sc.SolverScopeToken }

/-- Concrete system state used by the C3 counterexample and witness. -/
def scopeCsEx : ScopeCS := ⟨[5], [1, 2], 7, 9⟩

/-- Concrete component used by the C3 counterexample and witness: it owns
constraint 2, which is not the head of the inactive list. -/
def scopeCompEx : Component := ⟨[4], [2]⟩

/-! ## DisjunctionStep destructor (CSStep.h lines 368-401) -/

/-- Trace alphabet for the destructor's observable actions. -/
inductive DtorAction
  | resetActiveChoice
  | restoreDisjunction
  | enableChoice (c : Nat)
deriving DecidableEq

/-- The slice of the ConstraintSystem touched by `~DisjunctionStep`: the
inactive-constraint list, the list of currently disabled overload choices,
and an abstract solver-tracked component rewound by the SolverScope held in
ActiveChoice. -/
structure DisjCS where
  InactiveConstraints : List Nat
  disabledChoiceIds : List Nat
  solverTracked : Nat
deriving DecidableEq

/-- The snapshot held by the SolverScope of the last attempted disjunction
choice (external `ConstraintSystem::SolverScope`): destroying it restores the
tracked state recorded when the choice attempt began — at that moment the
disjunction had already been erased (it is erased in the constructor's
initializer list) and the pruned sibling choices were already disabled. -/
structure ChoiceSnapshot where
  InactiveConstraints : List Nat
  disabledChoiceIds : List Nat
  solverTracked : Nat
deriving DecidableEq

/-- The DisjunctionStep fields read by its destructor (CSStep.h lines
371-381): the disjunction constraint, the `AfterDisjunction` position the
constraint was erased from at construction, the `DisabledChoices` recorded by
pruneOverloadSet, and the optional ActiveChoice scope. -/
structure DisjunctionStep where
  Disjunction : Nat
  AfterDisjunction : Nat
  DisabledChoices : List Nat
  ActiveChoice : Option ChoiceSnapshot
deriving DecidableEq

/-- `ActiveChoice.reset()`: destroying the optional destroys the SolverScope
of the last attempted choice, rewinding the system to the snapshot; with no
active choice it is a no-op.  Emits one trace action. -/
def activeChoiceReset (ac : Option ChoiceSnapshot) (cs : DisjCS) :
    DisjCS × List DtorAction :=
  (match ac with
   | none => cs
   | some snap => ⟨snap.InactiveConstraints, snap.disabledChoiceIds, snap.solverTracked⟩,
   [DtorAction.resetActiveChoice])

/-- SolverStep::restore (CSStep.h lines 175-178): re-insert the constraint
into `CS.InactiveConstraints` at the remembered iterator position (the
re-insertion into the constraint graph is not modelled).  Emits one trace
action. -/
def restoreConstraint (pos : Nat) (c : Nat) (cs : DisjCS) : DisjCS × List DtorAction :=
  ({ cs with InactiveConstraints := List.insertIdx pos c cs.InactiveConstraints },
   [DtorAction.restoreDisjunction])

/-- The destructor's loop `for (auto *choice : DisabledChoices)
choice->setEnabled();`: each iteration removes one choice from the disabled
list and emits a trace action, in the order of DisabledChoices. -/
def enableAll : List Nat → DisjCS → DisjCS × List DtorAction
  | [], cs => (cs, [])
  | c :: rest, cs =>
      let cs1 : DisjCS :=
        { cs with disabledChoiceIds := cs.disabledChoiceIds.filter (fun d => d != c) }
      let r := enableAll rest cs1
      (r.1, DtorAction.enableChoice c :: r.2)

/-- `~DisjunctionStep`, from CSStep.h lines 393-401: first
`ActiveChoice.reset()` rewinds any changes left by the last attempted choice,
then `restore(AfterDisjunction, Disjunction)` returns the disjunction
constraint to the system at the position it was erased from, then every
choice in `DisabledChoices` is re-enabled. -/
def disjunctionDtor (step : DisjunctionStep) (cs : DisjCS) : DisjCS × List DtorAction :=
  let r1 := activeChoiceReset step.ActiveChoice cs
  let r2 := restoreConstraint step.AfterDisjunction step.Disjunction r1.1
  let r3 := enableAll step.DisabledChoices r2.1
  (r3.1, r1.2 ++ (r2.2 ++ r3.2))

/-- Concrete DisjunctionStep used by the C4 witness. -/
def dtorStepEx : DisjunctionStep := ⟨9, 1, [4, 5], some ⟨[1, 2, 3], [4, 5, 6], 0⟩⟩

/-- Concrete system state used by the C4 witness. -/
def dtorCsEx : DisjCS := ⟨[8, 8], [4], 7⟩

/-! ## DisjunctionStep::pruneOverloadSet (CSStep.h lines 384-391, 431-462) -/

/-- An overload choice as inspected by pruneOverloadSet: `isDecl()` and, when
it is a declaration choice, `getDecl()` (declarations modelled by ids). -/
structure OverloadChoice where
  isDeclChoice : Bool
  declId : Nat
deriving DecidableEq

/-- One entry of the resolved-overload history
(`ResolvedOverloadSetListItem`, reached through `getResolvedOverloads`,
CSStep.h lines 180-182): the bound type (type ids double as type-variable
ids) and the chosen overload.  The list is ordered most-recent first, the
order in which the `Previous` links are followed. -/
structure ResolvedOverload where
  BoundType : Nat
  Choice : OverloadChoice
deriving DecidableEq

/-- A nested constraint of the disjunction as inspected by pruneOverloadSet:
its id, `getFirstType()->getAs<TypeVariableType>()` (`some` variable id when
the first type is a type variable), and `getOverloadChoice()`. -/
structure NestedChoice where
  id : Nat
  firstTypeVar : Option Nat
  choice : OverloadChoice
deriving DecidableEq

/-- The scan over the resolved-overload history (CSStep.h lines 441-461):
entries whose bound type is not equal to the representative are skipped
(`continue`); at the first entry whose bound type equals the representative,
if its choice is not a declaration the function returns with nothing
disabled (`return`), otherwise every nested choice naming a declaration
different from the resolved one is disabled in order, and the scan breaks.
Returns the resulting DisabledChoices list. -/
def pruneLoop (rep : Nat) (nested : List NestedChoice) :
    List ResolvedOverload → List Nat
  | [] => []
  | r :: rest =>
    if r.BoundType != rep then pruneLoop rep nested rest
    else if r.Choice.isDeclChoice then
      (nested.filter
        (fun c => c.choice.isDeclChoice && c.choice.declId != r.Choice.declId)).map
        NestedChoice.id
    else []

/-- DisjunctionStep::pruneOverloadSet, from CSStep.h lines 431-462, run
exactly once by the constructor (lines 384-391).  `reprOf` models
`getImpl().getRepresentative(nullptr)` (with `none` for a null result, which
the code checks for).  Nothing is disabled unless the first nested
alternative's first type is a type variable whose representative exists and
is a different variable; otherwise the resolved-overload history is
scanned by `pruneLoop`. -/
def pruneOverloadSet (reprOf : Nat → Option Nat)
    (resolvedOverloads : List ResolvedOverload)
    (nested : List NestedChoice) : List Nat :=
  match nested with
  | [] => []
  | first :: _ =>
    match first.firstTypeVar with
    | none => []
    | some typeVar =>
      match reprOf typeVar with
      | none => []
      | some rep =>
        if rep = typeVar then [] else pruneLoop rep nested resolvedOverloads

/-- The amended claim C5 as a definition, following the claim's words with
the one change the counterexample forces: the entry of the resolved-overload
history that decides the outcome is the most recent one whose bound type
equals the representative (`find?` on the most-recent-first list), not an
arbitrary entry.  When that entry's choice is a declaration, precisely the
nested choices naming a different declaration are disabled, in order; in all
other cases no choice is disabled. -/
def pruneSpecAmended (reprOf : Nat → Option Nat)
    (resolvedOverloads : List ResolvedOverload)
    (nested : List NestedChoice) : List Nat :=
  match nested with
  | [] => []
  | first :: _ =>
    match first.firstTypeVar with
    | none => []
    | some typeVar =>
      match reprOf typeVar with
      | none => []
      | some rep =>
        if rep = typeVar then []
        else
          match resolvedOverloads.find? (fun r => r.BoundType == rep) with
          | none => []
          | some r =>
            if r.Choice.isDeclChoice then
              (nested.filter
                (fun c => c.choice.isDeclChoice && c.choice.declId != r.Choice.declId)).map
                NestedChoice.id
            else []

/-- Concrete representative map for the C5 counterexample: type variable 1's
representative is variable 2. -/
def reprEx : Nat → Option Nat := fun tv => if tv == 1 then some 2 else none

/-- Concrete resolved-overload history for the C5 counterexample: the most
recent entry bound to type 2 carries a non-declaration choice; an older
entry bound to type 2 carries declaration 7. -/
def resolvedEx : List ResolvedOverload := [⟨2, ⟨false, 0⟩⟩, ⟨2, ⟨true, 7⟩⟩]

/-- Concrete nested choices for the C5 counterexample: the first alternative
binds type variable 1 and names declaration 8 (different from 7). -/
def nestedEx : List NestedChoice := [⟨10, some 1, ⟨true, 8⟩⟩, ⟨11, none, ⟨true, 7⟩⟩]

/-! ## TypeVariableStep binding iteration (CSStep.h lines 322-366) -/

/-- A potential binding as relevant to the iteration order: its value (a
type id) and whether its source is a literal-default constraint. -/
structure Binding where
  value : Nat
  fromLiteral : Bool
deriving DecidableEq

/-- Modelled from the spec: `TypeVariableStep::take`/`resume` live in
CSStep.cpp, which is not among the sources.  The header contributes the
flags — `AnySolved` ("whether any of the attempted bindings produced a
solution", CSStep.h lines 335-337) and `SawFirstLiteralConstraint` ("whether
source of one of the previously attempted bindings was a literal
constraint", lines 338-342) — and spec §4.4 the loop: on re-entry
`AnySolved` absorbs the child outcome, then the early-exit check of §4.4
step 2 stops the iteration when a solution exists and a literal-default
source has been attempted, then the next candidate is pulled from the
producer and attempted.  `solves` is the oracle saying whether the child
splitter spawned for a binding produces at least one solution.  Returns the
list of candidates actually attempted, in producer order. -/
def tvAttempt (solves : Binding → Bool) :
    List Binding → Bool → Bool → List Binding
  | [], _, _ => []
  | b :: rest, anySolved, sawLiteral =>
    if anySolved && sawLiteral then []
    else b :: tvAttempt solves rest (anySolved || solves b) (sawLiteral || b.fromLiteral)

/-- The candidates a TypeVariableStep attempts over its whole run, starting
from the initial flag state (`AnySolved = false`,
`SawFirstLiteralConstraint = false`, CSStep.h lines 337 and 342). -/
def tvAttempted (solves : Binding → Bool) (bindings : List Binding) : List Binding :=
  tvAttempt solves bindings false false

/-- Concrete solve oracle for C6: exactly the binding with value 1 solves. -/
def solvesEx : Binding → Bool := fun b => b.value == 1

/-- Concrete producer output for C6: a non-literal candidate that solves,
followed by two literal defaults. -/
def tvBindingsEx : List Binding := [⟨1, false⟩, ⟨2, true⟩, ⟨3, true⟩]

/-! ## SolverStep::filterSolutions (CSStep.h lines 186-189) -/

/-- The slice of the external ConstraintSystem consumed by
`SolverStep::filterSolutions`: the `retainAllSolutions()` configuration flag
and the external filter `CS.filterSolutions(solutions, ExprWeights, minimize)`
(modelled as a function of the solution list and the `minimize` flag;
solutions are modelled by ids). -/
structure FilterCS where
  retainAllSolutions : Bool
  solutionFilter : List Nat → Bool → List Nat

/-- SolverStep::filterSolutions, from CSStep.h lines 186-189: the external
filter runs on the solutions exactly when `!CS.retainAllSolutions()`;
otherwise the solution list is left untouched. -/
def filterSolutions (cs : FilterCS) (solutions : List Nat) (minimize : Bool) : List Nat :=
  if !cs.retainAllSolutions then cs.solutionFilter solutions minimize else solutions

/-- A concrete external filter used by the witness: discards everything. -/
def dropFilter : List Nat → Bool → List Nat := fun _ _ => []

/-! ## ComponentStep constructor (CSStep.h lines 240-320) -/

/-- The slice of ConstraintSystem read by the ComponentStep constructor:
`getCurrentScore()` (scores modelled as naturals). -/
structure ComponentCS where
  CurrentScore : Nat

/-- The state of a freshly constructed ComponentStep (CSStep.h lines 264-294).
`IsSingleComponent` is an `Option Bool`: `none` models the field being left
uninitialized (indeterminate), as opposed to `some b` for an assigned value. -/
structure ComponentStep where
  Index : Nat
  OriginalScore : Nat
  IsSingleComponent : Option Bool
  TypeVars : List Nat
  Constraints : List Nat
deriving DecidableEq

/-- ComponentStep's constructor, from CSStep.h lines 291-294.  Its initializer
list is `SolverStep(cs, solutions), Index(index), OriginalScore(getCurrentScore())`:
the `singleComponent` parameter is never read and the `IsSingleComponent`
field is not initialized at all (modelled as `none`); the `TypeVars` and
`Constraints` vectors are default-constructed empty. -/
def ComponentStep.construct (cs : ComponentCS) (index : Nat)
    (_singleComponent : Bool) : ComponentStep :=
  ⟨index, cs.CurrentScore, none, [], []⟩

/-- ComponentStep::create, from CSStep.h lines 314-319: arena-allocates
`ComponentStep(cs, index, singleComponent, solutions)`. -/
def ComponentStep.create (cs : ComponentCS) (index : Nat)
    (singleComponent : Bool) : ComponentStep :=
  ComponentStep.construct cs index singleComponent

/-! ## minElement / maxElement (unnamed stdlib source, lines 13-35) -/

/-- The loop body of `minElement`: `if e < result { result = e }`. -/
def minStep {α : Type*} [LinearOrder α] (result e : α) : α :=
  if e < result then e else result

/-- The loop body of `maxElement`: `if e > result { result = e }`. -/
def maxStep {α : Type*} [LinearOrder α] (result e : α) : α :=
  if e > result then e else result

/-- minElement, from the unnamed stdlib source lines 13-23.  The sequence is
modelled as the list of elements its generator yields.  `var result =
g.next()!` force-unwraps the first element: on an empty sequence the unwrap
fails (the call traps), modelled by `none`; otherwise the loop folds the
remaining elements with `if e < result { result = e }`. -/
def minElement {α : Type*} [LinearOrder α] : List α → Option α
  | [] => none
  | x :: xs => some (xs.foldl minStep x)

/-- maxElement, from the unnamed stdlib source lines 25-35; identical to
`minElement` except the loop body is `if e > result { result = e }`. -/
def maxElement {α : Type*} [LinearOrder α] : List α → Option α
  | [] => none
  | x :: xs => some (xs.foldl maxStep x)

end Swift

namespace Swift

/-! ## Theorems -/

/-- C1: CSStep.h's `transitionTo` performs no runtime enforcement of the
state-transition path: the off-path transition `Setup → Done` (not an edge of
`Setup → Ready → Running → (Suspended → Running)* → Done`) is silently
applied rather than rejected as a fatal invariant violation.  This evaluates
the code at the failing input. -/
theorem transitionTo_applies_offpath_silently :
    transitionTo StepState.Setup StepState.Done = StepState.Done ∧
      validTransition StepState.Setup StepState.Done = false := by
  decide

/-- C2 counterexample: the claim is false at a concrete input.  For the
result `unsolved([0, 1])` transferred onto an empty work list, `transfer`
appends the follow-ups in their stored order (no reversal), so the next step
executed from the LIFO work list is follow-up `1` — the last emitted — and
not follow-up `0` at index 0. -/
theorem transfer_lifo_counterexample :
    StepResult.transfer (StepResult.unsolvedMany [0, 1]) [] = [0, 1] ∧
      nextExecuted (StepResult.transfer (StepResult.unsolvedMany [0, 1]) []) = some 1 ∧
      (StepResult.unsolvedMany [0, 1]).NextSteps.head? = some 0 ∧
      some 1 ≠ (some 0 : Option Nat) := by
  decide

/-- C2 (amended): `transfer` appends the follow-up steps to the work list in
their stored order, and therefore — the work list being a LIFO stack — when
the follow-up list is non-empty the next step executed is the follow-up at
the last index, i.e. sibling execution order is the reverse of emission
order. -/
theorem transfer_appends_lastEmitted_first (r : StepResult) (workList : List Nat) :
    StepResult.transfer r workList = workList ++ r.NextSteps ∧
      (r.NextSteps ≠ [] →
        nextExecuted (StepResult.transfer r workList) = r.NextSteps.getLast?) := by
  refine ⟨rfl, fun h => ?_⟩
  unfold nextExecuted StepResult.transfer
  exact List.getLast?_append_of_ne_nil _ h

/-- C2 witness: the amended theorem applied at the concrete result
`unsolved([3, 4])` and work list `[9]`. -/
theorem transfer_appends_witness :
    (StepResult.unsolvedMany [3, 4]).NextSteps ≠ [] ∧
      nextExecuted (StepResult.transfer (StepResult.unsolvedMany [3, 4]) [9]) =
        (StepResult.unsolvedMany [3, 4]).NextSteps.getLast? :=
  ⟨by decide, (transfer_appends_lastEmitted_first (StepResult.unsolvedMany [3, 4]) [9]).2
    (by decide)⟩

/-- C7: every StepResult constructible through the public interface (the
success, failure and unsolved factories, the only ones reachable since the
default constructor is deleted and the others are private) carries a
non-empty follow-up list only when its kind is Unsolved; results of kind
Solved or Error carry no follow-up steps. -/
theorem stepResult_followups_only_unsolved (r : StepResult)
    (h : StepResult.FromPublicAPI r) :
    (r.NextSteps ≠ [] → r.ResultKind = SolutionKind.Unsolved) ∧
      ((r.ResultKind = SolutionKind.Solved ∨ r.ResultKind = SolutionKind.Error) →
        r.NextSteps = []) := by
  cases h with
  | success => exact ⟨fun h => absurd rfl h, fun _ => rfl⟩
  | failure => exact ⟨fun h => absurd rfl h, fun _ => rfl⟩
  | unsolvedSingle s =>
      exact ⟨fun _ => rfl, fun h => by cases h <;> simp_all [StepResult.unsolvedSingle]⟩
  | unsolvedMany fs =>
      exact ⟨fun _ => rfl, fun h => by cases h <;> simp_all [StepResult.unsolvedMany]⟩

/-- C7 witness: the theorem applied to the concrete result
`unsolved(7)`, whose constructibility is discharged by the factory
constructor. -/
theorem stepResult_followups_witness :
    StepResult.FromPublicAPI (StepResult.unsolvedSingle 7) ∧
      (StepResult.unsolvedSingle 7).ResultKind = SolutionKind.Unsolved :=
  ⟨StepResult.FromPublicAPI.unsolvedSingle 7,
    (stepResult_followups_only_unsolved (StepResult.unsolvedSingle 7)
      (StepResult.FromPublicAPI.unsolvedSingle 7)).1 (by decide)⟩

/-- C3 counterexample: the claim is false at a concrete input.  For the
system state with inactive constraints `[1, 2]` and a component owning
constraint 2, destroying the scope immediately after constructing it (the
most favourable case: no intervening mutations at all) yields inactive
constraints `[2, 1]`: the saved constraints are spliced to the end, so the
tracked slice is not byte-equivalent to its state at construction. -/
theorem componentScope_roundtrip_counterexample :
    scopeDestroy (scopeConstruct scopeCsEx scopeCompEx).1
        (scopeConstruct scopeCsEx scopeCompEx).2 ≠ scopeCsEx ∧
      (scopeDestroy (scopeConstruct scopeCsEx scopeCompEx).1
          (scopeConstruct scopeCsEx scopeCompEx).2).InactiveConstraints = [2, 1] ∧
      scopeCsEx.InactiveConstraints = [1, 2] := by
  decide

/-- C3 (amended): when the scope is destroyed in a state whose inactive
constraints are the ones construction left installed (the component's own,
as the nested scopes' rewinds guarantee), destruction restores the saved
type variables, the previous partial-solution scope and the solver-scope
snapshot exactly, and returns the saved constraints to the system by
splicing them at the end, so the inactive-constraint list is restored as a
multiset (a permutation of the original) though not necessarily in its
original order. -/
theorem componentScope_destroy_restores (cs : ScopeCS) (comp : Component)
    (cs₂ : ScopeCS)
    (h : cs₂.InactiveConstraints = (scopeConstruct cs comp).2.InactiveConstraints) :
    (scopeDestroy (scopeConstruct cs comp).1 cs₂).TypeVariables = cs.TypeVariables ∧
      (scopeDestroy (scopeConstruct cs comp).1 cs₂).solutionScopeMark =
        cs.solutionScopeMark ∧
      (scopeDestroy (scopeConstruct cs comp).1 cs₂).solverTracked = cs.solverTracked ∧
      ((scopeDestroy (scopeConstruct cs comp).1 cs₂).InactiveConstraints).Perm
        cs.InactiveConstraints := by
  refine ⟨rfl, rfl, rfl, ?_⟩
  simp only [scopeDestroy, scopeConstruct, h]
  exact List.filter_append_perm _ cs.InactiveConstraints

/-- C3 witness: the amended theorem applied to the concrete state and
component of the counterexample, with destruction immediately after
construction. -/
theorem componentScope_destroy_restores_witness :
    ((scopeConstruct scopeCsEx scopeCompEx).2.InactiveConstraints =
        (scopeConstruct scopeCsEx scopeCompEx).2.InactiveConstraints) ∧
      ((scopeDestroy (scopeConstruct scopeCsEx scopeCompEx).1
            (scopeConstruct scopeCsEx scopeCompEx).2).TypeVariables =
          scopeCsEx.TypeVariables ∧
        (scopeDestroy (scopeConstruct scopeCsEx scopeCompEx).1
            (scopeConstruct scopeCsEx scopeCompEx).2).solutionScopeMark =
          scopeCsEx.solutionScopeMark ∧
        (scopeDestroy (scopeConstruct scopeCsEx scopeCompEx).1
            (scopeConstruct scopeCsEx scopeCompEx).2).solverTracked =
          scopeCsEx.solverTracked ∧
        ((scopeDestroy (scopeConstruct scopeCsEx scopeCompEx).1
            (scopeConstruct scopeCsEx scopeCompEx).2).InactiveConstraints).Perm
          scopeCsEx.InactiveConstraints) :=
  ⟨rfl, componentScope_destroy_restores scopeCsEx scopeCompEx
    (scopeConstruct scopeCsEx scopeCompEx).2 rfl⟩

/-- Helper: the re-enable loop emits exactly one enable action per recorded
choice, in order. -/
theorem enableAll_trace :
    ∀ (l : List Nat) (cs : DisjCS), (enableAll l cs).2 = l.map DtorAction.enableChoice := by
  intro l
  induction l with
  | nil => intro cs; rfl
  | cons c rest ih => intro cs; simp [enableAll, ih]

/-- Helper: the re-enable loop does not touch the inactive-constraint list. -/
theorem enableAll_inactive :
    ∀ (l : List Nat) (cs : DisjCS),
      (enableAll l cs).1.InactiveConstraints = cs.InactiveConstraints := by
  intro l
  induction l with
  | nil => intro cs; rfl
  | cons c rest ih => intro cs; simp [enableAll, ih]

/-- Helper: the re-enable loop does not touch the solver-tracked state. -/
theorem enableAll_solverTracked :
    ∀ (l : List Nat) (cs : DisjCS),
      (enableAll l cs).1.solverTracked = cs.solverTracked := by
  intro l
  induction l with
  | nil => intro cs; rfl
  | cons c rest ih => intro cs; simp [enableAll, ih]

/-- Helper: the re-enable loop only ever removes entries from the disabled
list. -/
theorem enableAll_disabled_subset :
    ∀ (l : List Nat) (cs : DisjCS) (d : Nat),
      d ∈ (enableAll l cs).1.disabledChoiceIds → d ∈ cs.disabledChoiceIds := by
  intro l
  induction l with
  | nil => intro cs d hd; exact hd
  | cons c rest ih =>
      intro cs d hd
      have hd1 := ih _ d hd
      simp only [List.mem_filter] at hd1
      exact hd1.1

/-- Helper: every choice fed to the re-enable loop is absent from the final
disabled list. -/
theorem enableAll_not_mem :
    ∀ (l : List Nat) (cs : DisjCS) (c : Nat),
      c ∈ l → c ∉ (enableAll l cs).1.disabledChoiceIds := by
  intro l
  induction l with
  | nil => intro cs c hc; cases hc
  | cons a rest ih =>
      intro cs c hc
      rcases List.mem_cons.mp hc with hca | hmem
      · subst hca
        intro habs
        have hsub := enableAll_disabled_subset rest _ c habs
        simp only [List.mem_filter, bne_self_eq_false] at hsub
        exact Bool.false_ne_true hsub.2
      · exact ih _ c hmem

/-- C4: the DisjunctionStep destructor performs exactly these actions in this
order — first it resets ActiveChoice (rewinding the mutations of the last
attempted choice), then it re-inserts the disjunction constraint at the
position it was erased from at construction, then it re-enables every choice
recorded in DisabledChoices.  The trace equation states the order; the state
conjuncts show the effects: every pruned choice is enabled again, and when an
active choice is live the disjunction is re-inserted into the rewound
constraint list (so resetting after restoring would lose the re-insertion). -/
theorem disjunctionStep_dtor_order (step : DisjunctionStep) (cs : DisjCS) :
    (disjunctionDtor step cs).2 =
        DtorAction.resetActiveChoice :: DtorAction.restoreDisjunction ::
          step.DisabledChoices.map DtorAction.enableChoice ∧
      (∀ c ∈ step.DisabledChoices,
        c ∉ (disjunctionDtor step cs).1.disabledChoiceIds) ∧
      (∀ snap, step.ActiveChoice = some snap →
        (disjunctionDtor step cs).1.InactiveConstraints =
          List.insertIdx step.AfterDisjunction step.Disjunction
            snap.InactiveConstraints ∧
        (disjunctionDtor step cs).1.solverTracked = snap.solverTracked) ∧
      (step.ActiveChoice = none →
        (disjunctionDtor step cs).1.InactiveConstraints =
          List.insertIdx step.AfterDisjunction step.Disjunction
            cs.InactiveConstraints) := by
  refine ⟨?_, ?_, ?_, ?_⟩
  · simp [disjunctionDtor, activeChoiceReset, restoreConstraint, enableAll_trace]
  · intro c hc
    exact enableAll_not_mem step.DisabledChoices _ c hc
  · intro snap hsnap
    refine ⟨?_, ?_⟩
    · simp [disjunctionDtor, hsnap, activeChoiceReset, restoreConstraint,
        enableAll_inactive]
    · simp [disjunctionDtor, hsnap, activeChoiceReset, restoreConstraint,
        enableAll_solverTracked]
  · intro hnone
    simp [disjunctionDtor, hnone, activeChoiceReset, restoreConstraint,
      enableAll_inactive]

/-- C4 witness: the theorem applied to a concrete step with disabled choices
`[4, 5]`, showing choice 4 is re-enabled. -/
theorem disjunctionStep_dtor_order_witness :
    4 ∈ dtorStepEx.DisabledChoices ∧
      4 ∉ (disjunctionDtor dtorStepEx dtorCsEx).1.disabledChoiceIds :=
  ⟨by decide, (disjunctionStep_dtor_order dtorStepEx dtorCsEx).2.1 4 (by decide)⟩

/-- Helper: the history scan of pruneOverloadSet is decided by the most
recent entry whose bound type equals the representative. -/
theorem pruneLoop_eq_find (rep : Nat) (nested : List NestedChoice) :
    ∀ l : List ResolvedOverload,
      pruneLoop rep nested l =
        match l.find? (fun r => r.BoundType == rep) with
        | none => []
        | some r =>
          if r.Choice.isDeclChoice then
            (nested.filter
              (fun c => c.choice.isDeclChoice && c.choice.declId != r.Choice.declId)).map
              NestedChoice.id
          else [] := by
  intro l
  induction l with
  | nil => rfl
  | cons r rest ih =>
      by_cases h : r.BoundType = rep
      · simp [pruneLoop, List.find?_cons, h]
      · simp [pruneLoop, List.find?_cons, h, ih]

/-- C5 counterexample: the claim is false at a concrete input.  Type
variable 1 has representative 2, the representative appears as the bound
type of an entry of the resolved-overload history whose choice is
declaration 7, and the disjunction has a nested choice naming declaration
8 ≠ 7 — so by the claim that choice must be disabled.  But the most recent
history entry bound to type 2 carries a non-declaration choice, and the
code's scan returns there: nothing is disabled. -/
theorem pruneOverloadSet_counterexample :
    pruneOverloadSet reprEx resolvedEx nestedEx = [] ∧
      reprEx 1 = some 2 ∧
      nestedEx.head?.map NestedChoice.firstTypeVar = some (some 1) ∧
      resolvedEx.any (fun r => r.BoundType == 2 && r.Choice.isDeclChoice) = true ∧
      (nestedEx.filter
        (fun c => c.choice.isDeclChoice && c.choice.declId != 7)).map NestedChoice.id =
        [10] := by
  decide

/-- C5 (amended): pruneOverloadSet runs once at construction and disables
precisely the nested choices naming a declaration different from the
resolved representative choice, exactly when the first nested alternative's
first type is a type variable whose representative is a different variable
and the most recent resolved-overload entry whose bound type equals that
representative has a declaration choice; in all other cases no choice is
disabled.  Stated as: the source function coincides with `pruneSpecAmended`,
the direct formalization of the amended sentence. -/
theorem pruneOverloadSet_characterization (reprOf : Nat → Option Nat)
    (resolvedOverloads : List ResolvedOverload) (nested : List NestedChoice) :
    pruneOverloadSet reprOf resolvedOverloads nested =
      pruneSpecAmended reprOf resolvedOverloads nested := by
  unfold pruneOverloadSet pruneSpecAmended
  cases nested with
  | nil => rfl
  | cons first rest =>
      cases hft : first.firstTypeVar with
      | none => simp [hft]
      | some tv =>
          cases hrep : reprOf tv with
          | none => simp [hft, hrep]
          | some rep =>
              by_cases h : rep = tv
              · simp [hft, hrep, h]
              · simp [hft, hrep, h, pruneLoop_eq_find]

/-- Helper: the attempted candidates always form an initial segment of the
producer's list. -/
theorem tvAttempt_append (solves : Binding → Bool) :
    ∀ (bs : List Binding) (a s : Bool), ∃ ys, bs = tvAttempt solves bs a s ++ ys := by
  intro bs
  induction bs with
  | nil => intro a s; exact ⟨[], rfl⟩
  | cons b rest ih =>
      intro a s
      by_cases h : (a && s) = true
      · exact ⟨b :: rest, by simp [tvAttempt, h]⟩
      · rcases ih (a || solves b) (s || b.fromLiteral) with ⟨ys, hys⟩
        refine ⟨ys, ?_⟩
        rw [tvAttempt, if_neg (by simp [h]), List.cons_append, ← hys]

/-- Helper: no candidate is attempted from a point where a solution already
existed and a literal-default source had already been attempted. -/
theorem tvAttempt_no_after_stop (solves : Binding → Bool) :
    ∀ (bs : List Binding) (a s : Bool) (xs : List Binding) (b : Binding)
      (ys : List Binding),
      tvAttempt solves bs a s = xs ++ b :: ys →
      ((a || xs.any solves) && (s || xs.any (fun x => x.fromLiteral))) = false := by
  intro bs
  induction bs with
  | nil =>
      intro a s xs b ys h
      rw [tvAttempt] at h
      exact absurd h.symm (by simp)
  | cons hd rest ih =>
      intro a s xs b ys h
      by_cases hstop : (a && s) = true
      · rw [tvAttempt, if_pos (by simp [hstop])] at h
        exact absurd h.symm (by simp)
      · rw [tvAttempt, if_neg (by simp [hstop])] at h
        cases xs with
        | nil =>
            simp only [List.any_nil, Bool.or_false]
            exact Bool.not_eq_true _ ▸ Bool.of_not_eq_true hstop
        | cons x xs2 =>
            rw [List.cons_append] at h
            have h1 : hd = x := (List.cons.injEq _ _ _ _ ▸ h).1
            have h2 := (List.cons.injEq _ _ _ _ ▸ h).2
            subst h1
            have := ih (a || solves hd) (s || hd.fromLiteral) xs2 b ys h2
            simpa [List.any_cons, Bool.or_assoc] using this

/-- Helper: the iteration cuts the producer short only when the stop
condition (a solution exists and a literal-default source was attempted)
holds over what was attempted. -/
theorem tvAttempt_stop_reason (solves : Binding → Bool) :
    ∀ (bs : List Binding) (a s : Bool),
      tvAttempt solves bs a s ≠ bs →
      ((a || (tvAttempt solves bs a s).any solves) &&
        (s || (tvAttempt solves bs a s).any (fun x => x.fromLiteral))) = true := by
  intro bs
  induction bs with
  | nil => intro a s h; exact absurd rfl h
  | cons hd rest ih =>
      intro a s h
      by_cases hstop : (a && s) = true
      · rw [tvAttempt, if_pos (by simp [hstop])]
        simpa using hstop
      · rw [tvAttempt, if_neg (by simp [hstop])] at h ⊢
        have hne : tvAttempt solves rest (a || solves hd) (s || hd.fromLiteral) ≠ rest := by
          intro he
          exact h (by rw [he])
        have := ih (a || solves hd) (s || hd.fromLiteral) hne
        simpa [List.any_cons, Bool.or_assoc] using this

/-- C6 (amended): in every run of a TypeVariableStep, bindings are attempted
in strict producer priority order (the attempted candidates are an initial
segment of the producer's list); no candidate is attempted after a point
where a solution already existed and a literal-default binding had already
been attempted — so once a non-literal attempt has produced a solution, at
most the first literal default is attempted, not none as claimed; and the
iteration stops early only for that reason, so when no earlier candidate
solved (in particular when all non-literal candidates fail) the literal
defaults are attempted. -/
theorem typeVariableStep_attempt_order (solves : Binding → Bool)
    (bindings : List Binding) :
    (∃ ys, bindings = tvAttempted solves bindings ++ ys) ∧
      (∀ xs b ys, tvAttempted solves bindings = xs ++ b :: ys →
        (xs.any solves && xs.any (fun x => x.fromLiteral)) = false) ∧
      (tvAttempted solves bindings ≠ bindings →
        ((tvAttempted solves bindings).any solves &&
          (tvAttempted solves bindings).any (fun x => x.fromLiteral)) = true) := by
  refine ⟨tvAttempt_append solves bindings false false, ?_, ?_⟩
  · intro xs b ys h
    have := tvAttempt_no_after_stop solves bindings false false xs b ys h
    simpa using this
  · intro h
    have := tvAttempt_stop_reason solves bindings false false h
    simpa using this

/-- C6 counterexample: the claim is false at a concrete input.  With
candidates `[1 (non-literal, solves), 2 (literal), 3 (literal)]`, the
non-literal candidate 1 produces a solution, yet the literal default 2 is
still attempted afterwards (the early exit only fires before candidate 3),
contradicting "no literal-default binding is attempted afterwards". -/
theorem typeVariableStep_literal_counterexample :
    tvAttempted solvesEx tvBindingsEx = [⟨1, false⟩, ⟨2, true⟩] ∧
      solvesEx ⟨1, false⟩ = true ∧
      (Binding.mk 1 false).fromLiteral = false ∧
      (Binding.mk 2 true).fromLiteral = true := by
  decide

/-- C6 witness: the amended theorem applied to the concrete oracle and
producer list of the counterexample; the run stops early, and the clause
characterizing early stops is discharged there. -/
theorem typeVariableStep_attempt_order_witness :
    tvAttempted solvesEx tvBindingsEx ≠ tvBindingsEx ∧
      ((tvAttempted solvesEx tvBindingsEx).any solvesEx &&
        (tvAttempted solvesEx tvBindingsEx).any (fun x => x.fromLiteral)) = true :=
  ⟨by decide, (typeVariableStep_attempt_order solvesEx tvBindingsEx).2.2 (by decide)⟩

/-- C8: `filterSolutions` invokes the external solution filter if and only if
the constraint system is not configured to retain all solutions; when
`retainAllSolutions` is true the solution list is left unchanged. -/
theorem filterSolutions_respects_retainAll (cs : FilterCS) (solutions : List Nat)
    (minimize : Bool) :
    (cs.retainAllSolutions = true → filterSolutions cs solutions minimize = solutions) ∧
      (cs.retainAllSolutions = false →
        filterSolutions cs solutions minimize = cs.solutionFilter solutions minimize) := by
  constructor <;> intro h <;> simp [filterSolutions, h]

/-- C8 witness: the theorem applied to two concrete configurations, one
retaining all solutions (list unchanged) and one not (the external filter,
here `dropFilter`, runs). -/
theorem filterSolutions_respects_retainAll_witness :
    ((FilterCS.mk true dropFilter).retainAllSolutions = true ∧
        filterSolutions (FilterCS.mk true dropFilter) [1, 2] false = [1, 2]) ∧
      ((FilterCS.mk false dropFilter).retainAllSolutions = false ∧
        filterSolutions (FilterCS.mk false dropFilter) [1, 2] false =
          dropFilter [1, 2] false) :=
  ⟨⟨rfl, (filterSolutions_respects_retainAll (FilterCS.mk true dropFilter) [1, 2] false).1 rfl⟩,
    ⟨rfl, (filterSolutions_respects_retainAll (FilterCS.mk false dropFilter) [1, 2] false).2 rfl⟩⟩

/-- C9: the ComponentStep constructor ignores its `singleComponent` parameter:
the constructed step is identical for any two values of the argument, and its
`IsSingleComponent` field is left uninitialized (`none`) rather than assigned
from the argument, so `ComponentStep::create`'s result is not determined by
whether the splitter marked the component single. -/
theorem componentStep_create_ignores_singleComponent (cs : ComponentCS) (index : Nat)
    (b b' : Bool) :
    ComponentStep.create cs index b = ComponentStep.create cs index b' ∧
      (ComponentStep.create cs index b).IsSingleComponent = none :=
  ⟨rfl, rfl⟩

/-- Helper: the min-fold never exceeds its initial accumulator. -/
theorem minFold_le_init {α : Type*} [LinearOrder α] :
    ∀ (xs : List α) (a : α), xs.foldl minStep a ≤ a := by
  intro xs
  induction xs with
  | nil => intro a; simp
  | cons x xs ih =>
      intro a
      simp only [List.foldl_cons]
      refine le_trans (ih (minStep a x)) ?_
      unfold minStep
      split
      · exact le_of_lt (by assumption)
      · exact le_refl a

/-- Helper: the min-fold is a lower bound of the folded elements. -/
theorem minFold_le_mem {α : Type*} [LinearOrder α] :
    ∀ (xs : List α) (a : α), ∀ x ∈ xs, xs.foldl minStep a ≤ x := by
  intro xs
  induction xs with
  | nil => intro a x hx; cases hx
  | cons y ys ih =>
      intro a x hx
      simp only [List.foldl_cons]
      rcases List.mem_cons.mp hx with hxy | hmem
      · subst hxy
        refine le_trans (minFold_le_init ys (minStep a x)) ?_
        unfold minStep
        split
        · exact le_refl x
        · exact le_of_not_lt (by assumption)
      · exact ih (minStep a y) x hmem

/-- Helper: the min-fold returns either the initial accumulator or one of the
folded elements. -/
theorem minFold_mem {α : Type*} [LinearOrder α] :
    ∀ (xs : List α) (a : α), xs.foldl minStep a = a ∨ xs.foldl minStep a ∈ xs := by
  intro xs
  induction xs with
  | nil => intro a; exact Or.inl rfl
  | cons y ys ih =>
      intro a
      simp only [List.foldl_cons]
      rcases ih (minStep a y) with heq | hmem
      · rw [heq]
        unfold minStep
        split
        · exact Or.inr (List.mem_cons_self y ys)
        · exact Or.inl rfl
      · exact Or.inr (List.mem_cons_of_mem y hmem)

/-- Helper: the max-fold is at least its initial accumulator. -/
theorem maxFold_init_le {α : Type*} [LinearOrder α] :
    ∀ (xs : List α) (a : α), a ≤ xs.foldl maxStep a := by
  intro xs
  induction xs with
  | nil => intro a; simp
  | cons x xs ih =>
      intro a
      simp only [List.foldl_cons]
      refine le_trans ?_ (ih (maxStep a x))
      unfold maxStep
      split
      · exact le_of_lt (by assumption)
      · exact le_refl a

/-- Helper: the max-fold is an upper bound of the folded elements. -/
theorem maxFold_mem_le {α : Type*} [LinearOrder α] :
    ∀ (xs : List α) (a : α), ∀ x ∈ xs, x ≤ xs.foldl maxStep a := by
  intro xs
  induction xs with
  | nil => intro a x hx; cases hx
  | cons y ys ih =>
      intro a x hx
      simp only [List.foldl_cons]
      rcases List.mem_cons.mp hx with hxy | hmem
      · subst hxy
        refine le_trans ?_ (maxFold_init_le ys (maxStep a x))
        unfold maxStep
        split
        · exact le_refl x
        · exact le_of_not_lt (by assumption)
      · exact ih (maxStep a y) x hmem

/-- Helper: the max-fold returns either the initial accumulator or one of the
folded elements. -/
theorem maxFold_mem {α : Type*} [LinearOrder α] :
    ∀ (xs : List α) (a : α), xs.foldl maxStep a = a ∨ xs.foldl maxStep a ∈ xs := by
  intro xs
  induction xs with
  | nil => intro a; exact Or.inl rfl
  | cons y ys ih =>
      intro a
      simp only [List.foldl_cons]
      rcases ih (maxStep a y) with heq | hmem
      · rw [heq]
        unfold maxStep
        split
        · exact Or.inr (List.mem_cons_self y ys)
        · exact Or.inl rfl
      · exact Or.inr (List.mem_cons_of_mem y hmem)

/-- C10: `minElement` and `maxElement` are partial at the public interface:
on a sequence whose generator yields no element the forced unwrap of the
first `next()` fails (modelled by `none`); on a non-empty sequence the
failing branch is unreachable and `minElement` returns a least element and
`maxElement` a greatest element with respect to the order. -/
theorem minMaxElement_spec {α : Type*} [LinearOrder α] (l : List α) (h : l ≠ []) :
    minElement ([] : List α) = none ∧ maxElement ([] : List α) = none ∧
      (∃ m, minElement l = some m ∧ m ∈ l ∧ ∀ x ∈ l, m ≤ x) ∧
      (∃ M, maxElement l = some M ∧ M ∈ l ∧ ∀ x ∈ l, x ≤ M) := by
  refine ⟨rfl, rfl, ?_, ?_⟩
  · cases l with
    | nil => exact absurd rfl h
    | cons x xs =>
        refine ⟨xs.foldl minStep x, rfl, ?_, ?_⟩
        · rcases minFold_mem xs x with heq | hmem
          · rw [heq]; exact List.mem_cons_self x xs
          · exact List.mem_cons_of_mem x hmem
        · intro y hy
          rcases List.mem_cons.mp hy with hyx | hmem
          · subst hyx; exact minFold_le_init xs y
          · exact minFold_le_mem xs x y hmem
  · cases l with
    | nil => exact absurd rfl h
    | cons x xs =>
        refine ⟨xs.foldl maxStep x, rfl, ?_, ?_⟩
        · rcases maxFold_mem xs x with heq | hmem
          · rw [heq]; exact List.mem_cons_self x xs
          · exact List.mem_cons_of_mem x hmem
        · intro y hy
          rcases List.mem_cons.mp hy with hyx | hmem
          · subst hyx; exact maxFold_init_le xs y
          · exact maxFold_mem_le xs x y hmem

/-- C10 witness: the theorem applied to the concrete non-empty list
`[3, 1, 2]` of naturals. -/
theorem minMaxElement_spec_witness :
    ([3, 1, 2] : List ℕ) ≠ [] ∧
      (minElement ([] : List ℕ) = none ∧ maxElement ([] : List ℕ) = none ∧
        (∃ m, minElement ([3, 1, 2] : List ℕ) = some m ∧ m ∈ [3, 1, 2] ∧
          ∀ x ∈ ([3, 1, 2] : List ℕ), m ≤ x) ∧
        (∃ M, maxElement ([3, 1, 2] : List ℕ) = some M ∧ M ∈ [3, 1, 2] ∧
          ∀ x ∈ ([3, 1, 2] : List ℕ), x ≤ M)) :=
  ⟨by decide, minMaxElement_spec [3, 1, 2] (by decide)⟩

end Swift
